import Mathlib

/-!
Shallow embedding of the Avail settlement-layer sequencer consensus worker
(`consensus/avail/mechanism.go`): mechanism-type parsing, the per-tick worker
loop `SequencerWorker.Run`, block production `SequencerWorker.writeBlock`,
and transaction selection `SequencerWorker.writeTransactions`.  External
collaborators (chain storage, state executor, txpool, DA client, staking
registry) are modelled as oracle inputs recorded in an explicit event trace,
so that the control flow of the source functions is captured exactly.
-/

set_option maxRecDepth 2048

/-! ## Mechanism types (`mechanism.go`, ParseType / MechanismExists) -/

/-- Go `type MechanismType string`: a distinct string-backed type. -/
structure MechanismType where
  val : String
deriving DecidableEq

def BootstrapSequencer : MechanismType := ⟨"bootstrap-sequencer"⟩

def Sequencer : MechanismType := ⟨"sequencer"⟩

def Validator : MechanismType := ⟨"validator"⟩

def WatchTower : MechanismType := ⟨"watchtower"⟩

/-- The `mechanismTypes` lookup table, string key to mechanism value. -/
def mechanismTypes : List (String × MechanismType) :=
  [("bootstrap-sequencer", BootstrapSequencer),
   ("sequencer", Sequencer),
   ("validator", Validator),
   ("watchtower", WatchTower)]

/-- `MechanismType.String`: a cast back to the underlying string. -/
def MechanismType.toGoString (t : MechanismType) : String := t.val

/-- `MechanismExists`: membership of the value among the table's values. -/
def MechanismExists (mechanism : MechanismType) : Bool :=
  mechanismTypes.any fun m => mechanism = m.2

/-- `ParseType`: table lookup; on failure returns the zero value `⟨""⟩`
together with an error message (second component `some msg` models the
non-nil Go error, `none` models a nil error). -/
def ParseType (mechanism : String) : MechanismType × Option String :=
  match mechanismTypes.lookup mechanism with
  | some castType => (castType, none)
  | none => (⟨""⟩, some ("invalid avail mechanism type " ++ mechanism))

/-! ## Header timestamp (`writeBlock`, lines 256-264)

Timestamps are in whole seconds (the `blockTime` field is documented in the
source as "Minimum block generation time in seconds"). -/

/-- `parentTime := Unix(parent.Timestamp); headerTime := parentTime.Add(blockTime);
if headerTime.Before(now) { headerTime = now }; header.Timestamp = headerTime`. -/
def headerTimestamp (now parentTs blockTime : Nat) : Nat :=
  let headerTime := parentTs + blockTime
  if headerTime < now then now else headerTime

/-! ## Transaction selection (`writeTransactions`, lines 338-378)

The pool is the ordered ready queue: `Peek` reads the head, `Pop`/`Drop`
remove the head, `Demote` moves the head out of the ready queue.  The
external state transition is an abstract stateful `write` function whose
result classifies the failure exactly as the source's type switch does. -/

structure Tx where
  id : Nat
  gas : Nat
deriving DecidableEq

/-- Result of the external `transition.Write(tx)` call:
success (with the successor transition state), the
`GasLimitReachedTransitionApplicationError`, a recoverable
`TransitionApplicationError`, or any other error. -/
inductive WriteRes (σ : Type) where
  | ok (s : σ)
  | gasLimitReached
  | recoverable
  | other
deriving DecidableEq

/-- Observable outcome of one `writeTransactions` run: the `successful`
slice, the transactions passed to `Drop`, the transactions passed to
`Demote`, the transactions still sitting untouched in the pool when the
loop ends, and the final transition state. -/
structure SelResult (σ : Type) where
  included : List Tx
  dropped : List Tx
  demoted : List Tx
  remaining : List Tx
  finalState : σ
deriving DecidableEq

/-- `SequencerWorker.writeTransactions`.  `gasLimit` is the block gas limit
computed once before the loop; note that the pre-execution check
`tx.ExceedsBlockGasLimit(gasLimit)` compares the transaction's own gas
against this constant, not against a remaining budget. -/
def writeTransactions {σ : Type} (gasLimit : Nat) (write : σ → Tx → WriteRes σ) :
    σ → List Tx → SelResult σ
  | s, [] => ⟨[], [], [], [], s⟩
  | s, tx :: rest =>
    if tx.gas > gasLimit then
      let r := writeTransactions gasLimit write s rest
      { r with dropped := tx :: r.dropped }
    else
      match write s tx with
      | .gasLimitReached => ⟨[], [], [], tx :: rest, s⟩
      | .recoverable =>
        let r := writeTransactions gasLimit write s rest
        { r with demoted := tx :: r.demoted }
      | .other =>
        let r := writeTransactions gasLimit write s rest
        { r with dropped := tx :: r.dropped }
      | .ok s' =>
        let r := writeTransactions gasLimit write s' rest
        { r with included := tx :: r.included }

/-- Modelled from the spec: the external state executor's transition keeps a
cumulative gas counter and `Write` fails with the gas-limit-reached error
exactly when the transaction does not fit in the remaining block gas
("Gas-limit-reached failure → stop selecting (block is full)"). -/
def gasWrite (gasLimit : Nat) : Nat → Tx → WriteRes Nat :=
  fun used tx => if gasLimit < used + tx.gas then .gasLimitReached else .ok (used + tx.gas)

/-! ## Block production (`writeBlock`, lines 238-336)

Each fallible collaborator call is an oracle field; the returned trace
records the calls actually made, in source order, and the second component
is the Go error result (`none` = nil). -/

structure WBEnv where
  gasLimitRes : Option Nat
  assignExtraOk : Bool
  beginTxnOk : Bool
  writeSealOk : Bool
  sendOk : Bool
  localWriteOk : Bool
deriving DecidableEq

inductive WBEvent where
  | calcGasLimit
  | assignExtra
  | beginTxn
  | selectTxs
  | commit
  | seal
  | sendDA (success : Bool)
  | writeLocal
  | resetTxPool
deriving DecidableEq

inductive WBErr where
  | gasLimit
  | extraValidators
  | beginTxn
  | seal
  | daSubmit
  | localWrite
deriving DecidableEq

/-- `SequencerWorker.writeBlock`: gas-limit calculation, extra-data validator
assignment, `BeginTxn`, transaction selection, commit, sealing, the blocking
`SendAndWaitForStatus(blk, ExtrinsicStatus{IsInBlock: true})` DA publish,
the local `blockchain.WriteBlock`, and the final `txpool.ResetWithHeaders`,
each aborting with an error exactly where the source returns one. -/
def writeBlock (env : WBEnv) : List WBEvent × Option WBErr :=
  match env.gasLimitRes with
  | none => ([.calcGasLimit], some .gasLimit)
  | some _ =>
    if env.assignExtraOk = false then
      ([.calcGasLimit, .assignExtra], some .extraValidators)
    else if env.beginTxnOk = false then
      ([.calcGasLimit, .assignExtra, .beginTxn], some .beginTxn)
    else
      let pre : List WBEvent := [.calcGasLimit, .assignExtra, .beginTxn, .selectTxs, .commit]
      if env.writeSealOk = false then
        (pre ++ [.seal], some .seal)
      else if env.sendOk = false then
        (pre ++ [.seal, .sendDA false], some .daSubmit)
      else if env.localWriteOk = false then
        (pre ++ [.seal, .sendDA true, .writeLocal], some .localWrite)
      else
        (pre ++ [.seal, .sendDA true, .writeLocal, .resetTxPool], none)

/-! ## The per-tick worker loop (`Run`, lines 150-233)

One iteration of the `select` loop on a received DA block.  Oracle inputs:
the DA block number, the extraction result of `block.FromAvail` (list of
settlement blocks plus optional error, `notFound` being
`block.ErrNoExtrinsicFound`), the `CheckAndSlash` error flag, the
`Contains` staked-status query (`none` = query error), the `Get`
active-set query (`none` = query error), and whether production succeeds.
`localWriteRes` carries the (ignored) per-block results of the local
`WriteBlock` calls for extracted blocks. -/

inductive ExtractErr where
  | notFound
  | decode
deriving DecidableEq

structure TickEnv where
  daNumber : Nat
  extracted : List Nat
  extractErr : Option ExtractErr
  slashErr : Bool
  containsRes : Option Bool
  getRes : Option (List Nat)
  produceOk : Bool
  localWriteRes : List Bool
deriving DecidableEq

inductive TickStep where
  | storeTick (n : Nat)
  | logErrExtract
  | writeExtracted (b : Nat)
  | fraudPhase1
  | fraudPhase2
  | queryContains
  | logErrContains
  | logErrNotStaked
  | queryGet
  | logErrGet
  | leaderCheck
  | produce
  | logErrMine
  | logInfoSkip
deriving DecidableEq

/-- Which steps are `logger.Error` emissions. -/
def TickStep.isErrLog : TickStep → Bool
  | .logErrExtract => true
  | .logErrContains => true
  | .logErrNotStaked => true
  | .logErrGet => true
  | .logErrMine => true
  | _ => false

inductive TickOutcome where
  | nextTick
  | panicked
deriving DecidableEq

/-- Lines 192-224: the staked-status `Contains` query, the not-staked check,
the active-set `Get` query, the empty-set panic, and the leader comparison
`sequencers[0] == nodeAddr` followed by conditional production. -/
def tickStaking (localAddr : Nat) (env : TickEnv) : List TickStep × TickOutcome :=
  match env.containsRes with
  | none => ([.queryContains, .logErrContains], .nextTick)
  | some false => ([.queryContains, .logErrNotStaked], .nextTick)
  | some true =>
    match env.getRes with
    | none => ([.queryContains, .queryGet, .logErrGet], .nextTick)
    | some [] => ([.queryContains, .queryGet], .panicked)
    | some (s :: _) =>
      if s = localAddr then
        if env.produceOk then
          ([.queryContains, .queryGet, .leaderCheck, .produce], .nextTick)
        else
          ([.queryContains, .queryGet, .leaderCheck, .produce, .logErrMine], .nextTick)
      else
        ([.queryContains, .queryGet, .leaderCheck, .logInfoSkip], .nextTick)

/-- Lines 173-224: writing each extracted block to local storage (result
discarded), `CheckAndSetFraudBlock`, `CheckAndSlash` with its
short-circuit on error, then the staking/leader logic. -/
def tickRest (localAddr : Nat) (env : TickEnv) : List TickStep × TickOutcome :=
  if env.slashErr then
    (env.extracted.map TickStep.writeExtracted ++ [.fraudPhase1, .fraudPhase2], .nextTick)
  else
    (env.extracted.map TickStep.writeExtracted ++ [.fraudPhase1, .fraudPhase2]
       ++ (tickStaking localAddr env).1,
     (tickStaking localAddr env).2)

/-- One full tick of `SequencerWorker.Run` (lines 152-224): the `t.Store` of
the DA block number, the extraction guard
`if len(edgeBlks) == 0 && err != nil { log error; if err != ErrNoExtrinsicFound { continue } }`,
and the rest of the tick. -/
def runTick (localAddr : Nat) (env : TickEnv) : List TickStep × TickOutcome :=
  if env.extracted = [] ∧ env.extractErr.isSome then
    if env.extractErr ≠ some .notFound then
      ([.storeTick env.daNumber, .logErrExtract], .nextTick)
    else
      (.storeTick env.daNumber :: .logErrExtract :: (tickRest localAddr env).1,
       (tickRest localAddr env).2)
  else
    (.storeTick env.daNumber :: (tickRest localAddr env).1, (tickRest localAddr env).2)

/-! ## Theorems -/

/-- Claim C10: `ParseType` succeeds exactly on the four mechanism strings, is a
left inverse of the string cast on every mechanism type accepted by
`MechanismExists`, and returns the zero-value mechanism together with a
non-nil error on every other input string. -/
theorem parseType_inverse_and_domain :
    (∀ s : String, (ParseType s).2 = none ↔
      (s = "bootstrap-sequencer" ∨ s = "sequencer" ∨ s = "validator" ∨ s = "watchtower")) ∧
    (∀ m : MechanismType, MechanismExists m = true →
      ParseType (MechanismType.toGoString m) = (m, none)) ∧
    (∀ s : String,
      ¬(s = "bootstrap-sequencer" ∨ s = "sequencer" ∨ s = "validator" ∨ s = "watchtower") →
      (ParseType s).1 = ⟨""⟩ ∧ (ParseType s).2.isSome = true) := by
  refine ⟨?_, ?_, ?_⟩
  · intro s
    by_cases h1 : s = "bootstrap-sequencer"
    · subst h1; simp [ParseType, mechanismTypes, List.lookup]
    · by_cases h2 : s = "sequencer"
      · subst h2; simp [ParseType, mechanismTypes, List.lookup]
      · by_cases h3 : s = "validator"
        · subst h3; simp [ParseType, mechanismTypes, List.lookup]
        · by_cases h4 : s = "watchtower"
          · subst h4; simp [ParseType, mechanismTypes, List.lookup]
          · have e1 : (s == "bootstrap-sequencer") = false := beq_eq_false_iff_ne.mpr h1
            have e2 : (s == "sequencer") = false := beq_eq_false_iff_ne.mpr h2
            have e3 : (s == "validator") = false := beq_eq_false_iff_ne.mpr h3
            have e4 : (s == "watchtower") = false := beq_eq_false_iff_ne.mpr h4
            simp [ParseType, mechanismTypes, List.lookup, e1, e2, e3, e4, h1, h2, h3, h4]
  · intro m hm
    have : m = BootstrapSequencer ∨ m = Sequencer ∨ m = Validator ∨ m = WatchTower := by
      simpa [MechanismExists, mechanismTypes] using hm
    rcases this with h | h | h | h <;> subst h <;> decide
  · intro s hs
    push_neg at hs
    obtain ⟨h1, h2, h3, h4⟩ := hs
    have e1 : (s == "bootstrap-sequencer") = false := beq_eq_false_iff_ne.mpr h1
    have e2 : (s == "sequencer") = false := beq_eq_false_iff_ne.mpr h2
    have e3 : (s == "validator") = false := beq_eq_false_iff_ne.mpr h3
    have e4 : (s == "watchtower") = false := beq_eq_false_iff_ne.mpr h4
    simp [ParseType, mechanismTypes, List.lookup, e1, e2, e3, e4]

theorem parseType_inverse_and_domain_witness :
    ParseType "sequencer" = (Sequencer, none) ∧
    (ParseType "junk").1 = ⟨""⟩ ∧ (ParseType "junk").2.isSome = true :=
  ⟨parseType_inverse_and_domain.2.1 Sequencer (by decide),
   parseType_inverse_and_domain.2.2 "junk" (by decide)⟩

/-- Claim C7: the produced header timestamp equals `max now (parent + blockTime)`,
and whenever the configured minimum block interval is positive it is
strictly greater than the parent timestamp. -/
theorem headerTimestamp_max_and_monotone (now parentTs blockTime : Nat) :
    headerTimestamp now parentTs blockTime = max now (parentTs + blockTime) ∧
    (0 < blockTime → parentTs < headerTimestamp now parentTs blockTime) := by
  simp only [headerTimestamp]
  constructor
  · split <;> omega
  · intro h
    split <;> omega

theorem headerTimestamp_max_and_monotone_witness :
    headerTimestamp 12 10 3 = max 12 13 ∧ 10 < headerTimestamp 12 10 3 :=
  ⟨(headerTimestamp_max_and_monotone 12 10 3).1,
   (headerTimestamp_max_and_monotone 12 10 3).2 (by decide)⟩

/-- Claim C3 counterexample: on the pool [50, 60, 5] with block gas limit 100 and
cumulative gas accounting, the selector includes only the 50-gas transaction
and drops nothing: the 60-gas transaction fits the total block limit, so it
is not pre-dropped; its execution hits gas-limit-reached, which terminates
selection before the 5-gas transaction is ever examined.  This refutes the
claimed inclusion of [50, 5] with the 60-gas transaction dropped. -/
theorem selector_gas_scenario_counterexample :
    (writeTransactions 100 (gasWrite 100) 0 [⟨1, 50⟩, ⟨2, 60⟩, ⟨3, 5⟩]).included.map Tx.gas
        = [50] ∧
    (writeTransactions 100 (gasWrite 100) 0 [⟨1, 50⟩, ⟨2, 60⟩, ⟨3, 5⟩]).dropped = [] ∧
    (writeTransactions 100 (gasWrite 100) 0 [⟨1, 50⟩, ⟨2, 60⟩, ⟨3, 5⟩]).remaining
        = [⟨2, 60⟩, ⟨3, 5⟩] ∧
    ¬((writeTransactions 100 (gasWrite 100) 0 [⟨1, 50⟩, ⟨2, 60⟩, ⟨3, 5⟩]).included.map Tx.gas
          = [50, 5] ∧
      (writeTransactions 100 (gasWrite 100) 0 [⟨1, 50⟩, ⟨2, 60⟩, ⟨3, 5⟩]).dropped.map Tx.gas
          = [60]) := by
  decide

/-- Claim C3 amended: the selector pre-drops a peeked transaction, without
attempting execution, exactly when the transaction alone exceeds the TOTAL
block gas limit (the constant `gasLimit`, not the remaining budget); a
transaction within the total limit whose execution exceeds the remaining
budget fails with gas-limit-reached, which terminates selection leaving it
in the pool; consequently on pool [50, 60, 5] with limit 100 only the
50-gas transaction is included and no transaction is dropped. -/
theorem writeTransactions_gas_precheck_total_limit :
    (∀ (σ : Type) (g : Nat) (write : σ → Tx → WriteRes σ) (s : σ) (tx : Tx) (rest : List Tx),
       tx.gas > g →
       writeTransactions g write s (tx :: rest) =
         ⟨(writeTransactions g write s rest).included,
          tx :: (writeTransactions g write s rest).dropped,
          (writeTransactions g write s rest).demoted,
          (writeTransactions g write s rest).remaining,
          (writeTransactions g write s rest).finalState⟩) ∧
    (∀ (g used : Nat) (tx : Tx) (rest : List Tx),
       ¬ tx.gas > g → g < used + tx.gas →
       writeTransactions g (gasWrite g) used (tx :: rest) = ⟨[], [], [], tx :: rest, used⟩) ∧
    (writeTransactions 100 (gasWrite 100) 0 [⟨1, 50⟩, ⟨2, 60⟩, ⟨3, 5⟩]).included.map Tx.gas
        = [50] ∧
    (writeTransactions 100 (gasWrite 100) 0 [⟨1, 50⟩, ⟨2, 60⟩, ⟨3, 5⟩]).dropped = [] := by
  refine ⟨?_, ?_, by decide, by decide⟩
  · intro σ g write s tx rest h
    simp [writeTransactions, h]
  · intro g used tx rest hfit hover
    have hw : gasWrite g used tx = .gasLimitReached := by
      simp [gasWrite, hover]
    simp [writeTransactions, hfit, hw]

theorem writeTransactions_gas_precheck_total_limit_witness :
    writeTransactions 10 (gasWrite 10) 0 [⟨1, 11⟩] =
      ⟨(writeTransactions 10 (gasWrite 10) 0 ([] : List Tx)).included,
       (⟨1, 11⟩ : Tx) :: (writeTransactions 10 (gasWrite 10) 0 ([] : List Tx)).dropped,
       (writeTransactions 10 (gasWrite 10) 0 ([] : List Tx)).demoted,
       (writeTransactions 10 (gasWrite 10) 0 ([] : List Tx)).remaining,
       (writeTransactions 10 (gasWrite 10) 0 ([] : List Tx)).finalState⟩ ∧
    writeTransactions 10 (gasWrite 10) 6 [⟨2, 7⟩] = ⟨[], [], [], [⟨2, 7⟩], 6⟩ :=
  ⟨writeTransactions_gas_precheck_total_limit.1 Nat 10 (gasWrite 10) 0 ⟨1, 11⟩ []
     (by decide),
   writeTransactions_gas_precheck_total_limit.2.1 10 6 ⟨2, 7⟩ [] (by decide) (by decide)⟩

/-- Every pool transaction ends in exactly one of the four buckets: the pool
is a permutation of included ++ dropped ++ demoted ++ remaining. -/
theorem writeTransactions_perm {σ : Type} (g : Nat) (write : σ → Tx → WriteRes σ) :
    ∀ (pool : List Tx) (s : σ),
      List.Perm pool
        ((writeTransactions g write s pool).included ++
         ((writeTransactions g write s pool).dropped ++
          ((writeTransactions g write s pool).demoted ++
           (writeTransactions g write s pool).remaining))) := by
  intro pool
  induction pool with
  | nil => intro s; simp [writeTransactions]
  | cons tx rest ih =>
    intro s
    by_cases h : tx.gas > g
    · have ihs := ih s
      simp only [writeTransactions, if_pos h]
      rcases hres : writeTransactions g write s rest with ⟨inc, drop, dem, rem, fs⟩
      rw [hres] at ihs
      simp only at ihs ⊢
      exact (ihs.cons tx).trans List.perm_middle.symm
    · simp only [writeTransactions, if_neg h]
      cases hw : write s tx with
      | gasLimitReached => dsimp only; simp
      | recoverable =>
        dsimp only
        have ihs := ih s
        rcases hres : writeTransactions g write s rest with ⟨inc, drop, dem, rem, fs⟩
        rw [hres] at ihs
        simp only at ihs ⊢
        exact (ihs.cons tx).trans
          (List.perm_middle.symm.trans (List.Perm.append_left inc List.perm_middle.symm))
      | other =>
        dsimp only
        have ihs := ih s
        rcases hres : writeTransactions g write s rest with ⟨inc, drop, dem, rem, fs⟩
        rw [hres] at ihs
        simp only at ihs ⊢
        exact (ihs.cons tx).trans List.perm_middle.symm
      | ok s' =>
        dsimp only
        have ihs := ih s'
        rcases hres : writeTransactions g write s' rest with ⟨inc, drop, dem, rem, fs⟩
        rw [hres] at ihs
        simp only at ihs ⊢
        exact ihs.cons tx

/-- Claim C4: classification of each examined-and-executed transaction:
gas-limit-reached terminates selection at once, leaving the transaction (and
everything behind it) untouched in the pool, neither included nor dropped
nor demoted; a recoverable application failure demotes it and selection
continues on the rest; any other application failure drops it and selection
continues; success pops it and appends it to the included sequence; and
every pool transaction ends in exactly one bucket (the buckets partition
the pool up to permutation). -/
theorem writeTransactions_classification {σ : Type} (g : Nat)
    (write : σ → Tx → WriteRes σ) (s : σ) (tx : Tx) (rest : List Tx)
    (hfit : ¬ tx.gas > g) :
    (write s tx = .gasLimitReached →
       writeTransactions g write s (tx :: rest) = ⟨[], [], [], tx :: rest, s⟩) ∧
    (write s tx = .recoverable →
       writeTransactions g write s (tx :: rest) =
         ⟨(writeTransactions g write s rest).included,
          (writeTransactions g write s rest).dropped,
          tx :: (writeTransactions g write s rest).demoted,
          (writeTransactions g write s rest).remaining,
          (writeTransactions g write s rest).finalState⟩) ∧
    (write s tx = .other →
       writeTransactions g write s (tx :: rest) =
         ⟨(writeTransactions g write s rest).included,
          tx :: (writeTransactions g write s rest).dropped,
          (writeTransactions g write s rest).demoted,
          (writeTransactions g write s rest).remaining,
          (writeTransactions g write s rest).finalState⟩) ∧
    (∀ s' : σ, write s tx = .ok s' →
       writeTransactions g write s (tx :: rest) =
         ⟨tx :: (writeTransactions g write s' rest).included,
          (writeTransactions g write s' rest).dropped,
          (writeTransactions g write s' rest).demoted,
          (writeTransactions g write s' rest).remaining,
          (writeTransactions g write s' rest).finalState⟩) ∧
    (∀ (pool : List Tx) (s₀ : σ),
       List.Perm pool
         ((writeTransactions g write s₀ pool).included ++
          ((writeTransactions g write s₀ pool).dropped ++
           ((writeTransactions g write s₀ pool).demoted ++
            (writeTransactions g write s₀ pool).remaining)))) := by
  refine ⟨?_, ?_, ?_, ?_, fun pool s₀ => writeTransactions_perm g write pool s₀⟩
  · intro hw
    simp [writeTransactions, hfit, hw]
  · intro hw
    simp [writeTransactions, hfit, hw]
  · intro hw
    simp [writeTransactions, hfit, hw]
  · intro s' hw
    simp [writeTransactions, hfit, hw]

/-- A demonstration transition used to instantiate the selector's failure
classification at concrete inputs. -/
def demoWrite : Nat → Tx → WriteRes Nat :=
  fun s tx =>
    if tx.id = 1 then .recoverable
    else if tx.id = 2 then .other
    else if tx.id = 3 then .gasLimitReached
    else .ok (s + tx.gas)

theorem writeTransactions_classification_witness :
    writeTransactions 100 demoWrite 0 [⟨3, 10⟩] = ⟨[], [], [], [⟨3, 10⟩], 0⟩ ∧
    writeTransactions 100 demoWrite 0 [⟨1, 10⟩] =
      ⟨(writeTransactions 100 demoWrite 0 ([] : List Tx)).included,
       (writeTransactions 100 demoWrite 0 ([] : List Tx)).dropped,
       (⟨1, 10⟩ : Tx) :: (writeTransactions 100 demoWrite 0 ([] : List Tx)).demoted,
       (writeTransactions 100 demoWrite 0 ([] : List Tx)).remaining,
       (writeTransactions 100 demoWrite 0 ([] : List Tx)).finalState⟩ ∧
    writeTransactions 100 demoWrite 0 [⟨4, 10⟩] =
      ⟨(⟨4, 10⟩ : Tx) :: (writeTransactions 100 demoWrite 10 ([] : List Tx)).included,
       (writeTransactions 100 demoWrite 10 ([] : List Tx)).dropped,
       (writeTransactions 100 demoWrite 10 ([] : List Tx)).demoted,
       (writeTransactions 100 demoWrite 10 ([] : List Tx)).remaining,
       (writeTransactions 100 demoWrite 10 ([] : List Tx)).finalState⟩ ∧
    List.Perm [(⟨1, 10⟩ : Tx), ⟨2, 20⟩]
      ((writeTransactions 100 demoWrite 0 [(⟨1, 10⟩ : Tx), ⟨2, 20⟩]).included ++
       ((writeTransactions 100 demoWrite 0 [(⟨1, 10⟩ : Tx), ⟨2, 20⟩]).dropped ++
        ((writeTransactions 100 demoWrite 0 [(⟨1, 10⟩ : Tx), ⟨2, 20⟩]).demoted ++
         (writeTransactions 100 demoWrite 0 [(⟨1, 10⟩ : Tx), ⟨2, 20⟩]).remaining))) :=
  ⟨(writeTransactions_classification 100 demoWrite 0 ⟨3, 10⟩ [] (by decide)).1 (by decide),
   (writeTransactions_classification 100 demoWrite 0 ⟨1, 10⟩ [] (by decide)).2.1 (by decide),
   (writeTransactions_classification 100 demoWrite 0 ⟨4, 10⟩ [] (by decide)).2.2.2.1 10
     (by decide),
   (writeTransactions_classification 100 demoWrite 0 ⟨4, 10⟩ [] (by decide)).2.2.2.2
     [⟨1, 10⟩, ⟨2, 20⟩] 0⟩

/-- Claim C1: in block production, the local chain `WriteBlock` is invoked only in
traces where the DA publish wait has already returned success (it only ever
appears immediately after a successful `sendDA`), and every failure before
DA inclusion — gas-limit calculation, extra-data assignment, `BeginTxn`, or
sealing — aborts `writeBlock` with an error, with no local commit, no
txpool reset, and indeed no successful DA submit at all. -/
theorem writeBlock_local_commit_requires_da_inclusion (env : WBEnv) :
    (WBEvent.writeLocal ∈ (writeBlock env).1 →
       env.sendOk = true ∧
       ((writeBlock env).1 =
          [.calcGasLimit, .assignExtra, .beginTxn, .selectTxs, .commit, .seal,
           .sendDA true, .writeLocal] ∨
        (writeBlock env).1 =
          [.calcGasLimit, .assignExtra, .beginTxn, .selectTxs, .commit, .seal,
           .sendDA true, .writeLocal, .resetTxPool])) ∧
    ((env.gasLimitRes = none ∨ env.assignExtraOk = false ∨ env.beginTxnOk = false ∨
        env.writeSealOk = false) →
       (writeBlock env).2.isSome = true ∧
       WBEvent.writeLocal ∉ (writeBlock env).1 ∧
       WBEvent.resetTxPool ∉ (writeBlock env).1 ∧
       WBEvent.sendDA true ∉ (writeBlock env).1) := by
  obtain ⟨glr, aeo, bto, wso, so, lwo⟩ := env
  rcases glr with _ | v <;> cases aeo <;> cases bto <;> cases wso <;> cases so <;> cases lwo <;>
    simp [writeBlock]

theorem writeBlock_local_commit_requires_da_inclusion_witness :
    ((WBEnv.mk (some 1000) true true true true true).sendOk = true ∧
     ((writeBlock ⟨some 1000, true, true, true, true, true⟩).1 =
        [.calcGasLimit, .assignExtra, .beginTxn, .selectTxs, .commit, .seal,
         .sendDA true, .writeLocal] ∨
      (writeBlock ⟨some 1000, true, true, true, true, true⟩).1 =
        [.calcGasLimit, .assignExtra, .beginTxn, .selectTxs, .commit, .seal,
         .sendDA true, .writeLocal, .resetTxPool])) ∧
    ((writeBlock ⟨some 1000, true, true, false, true, true⟩).2.isSome = true ∧
     WBEvent.writeLocal ∉ (writeBlock ⟨some 1000, true, true, false, true, true⟩).1 ∧
     WBEvent.resetTxPool ∉ (writeBlock ⟨some 1000, true, true, false, true, true⟩).1 ∧
     WBEvent.sendDA true ∉ (writeBlock ⟨some 1000, true, true, false, true, true⟩).1) :=
  ⟨(writeBlock_local_commit_requires_da_inclusion ⟨some 1000, true, true, true, true, true⟩).1
     (by decide),
   (writeBlock_local_commit_requires_da_inclusion ⟨some 1000, true, true, false, true, true⟩).2
     (by decide)⟩

/-- Trace/outcome decomposition of a tick that is not short-circuited by a
hard extraction failure (empty extraction together with a non-NotFound
decode error). -/
theorem runTick_decomp (addr : Nat) (env : TickEnv)
    (h : ¬(env.extracted = [] ∧ env.extractErr = some ExtractErr.decode)) :
    ∃ pre : List TickStep,
      (pre = [] ∨ pre = [TickStep.logErrExtract]) ∧
      (runTick addr env).1 = TickStep.storeTick env.daNumber :: (pre ++ (tickRest addr env).1) ∧
      (runTick addr env).2 = (tickRest addr env).2 := by
  by_cases hg : env.extracted = [] ∧ env.extractErr.isSome
  · have hnf : env.extractErr = some ExtractErr.notFound := by
      rcases hg with ⟨he, hs⟩
      cases herr : env.extractErr with
      | none => rw [herr] at hs; simp at hs
      | some e =>
        cases e with
        | notFound => rfl
        | decode => exact absurd ⟨he, herr⟩ h
    refine ⟨[TickStep.logErrExtract], Or.inr rfl, ?_, ?_⟩ <;> simp [runTick, hg, hnf]
  · refine ⟨[], Or.inl rfl, ?_, ?_⟩ <;> simp [runTick, hg]

/-- Every branch of the staking/leader logic begins with the staked-status
query. -/
theorem queryContains_mem_tickStaking (addr : Nat) (env : TickEnv) :
    TickStep.queryContains ∈ (tickStaking addr env).1 := by
  unfold tickStaking
  rcases env.containsRes with _ | b
  · simp
  · cases b
    · simp
    · rcases env.getRes with _ | l
      · simp
      · cases l with
        | nil => simp
        | cons a rest =>
          by_cases ha : a = addr
          · by_cases hp : env.produceOk <;> simp [ha, hp]
          · simp [ha]

/-- Membership of a staking-phase step in the full tick trace reduces to
membership in the staking sub-trace, on a tick that reaches that phase. -/
theorem runTick_mem_staking (addr : Nat) (env : TickEnv) (x : TickStep)
    (h : ¬(env.extracted = [] ∧ env.extractErr = some ExtractErr.decode))
    (hs : env.slashErr = false)
    (hx1 : ∀ n, x ≠ TickStep.storeTick n) (hx2 : x ≠ TickStep.logErrExtract)
    (hx3 : ∀ b, x ≠ TickStep.writeExtracted b)
    (hx4 : x ≠ TickStep.fraudPhase1) (hx5 : x ≠ TickStep.fraudPhase2) :
    (x ∈ (runTick addr env).1 ↔ x ∈ (tickStaking addr env).1) := by
  obtain ⟨pre, hpre, htr, -⟩ := runTick_decomp addr env h
  rw [htr]
  rcases hpre with hpre | hpre <;> subst hpre <;>
    simp [tickRest, hs, List.mem_map, hx1, hx2, hx3, hx4, hx5] <;>
    exact fun b _ heq => absurd heq.symm (hx3 b)

/-- On a tick that reaches the staking phase, the tick outcome is the
staking-phase outcome. -/
theorem runTick_outcome_staking (addr : Nat) (env : TickEnv)
    (h : ¬(env.extracted = [] ∧ env.extractErr = some ExtractErr.decode))
    (hs : env.slashErr = false) :
    (runTick addr env).2 = (tickStaking addr env).2 := by
  obtain ⟨pre, -, -, hout⟩ := runTick_decomp addr env h
  rw [hout]
  simp [tickRest, hs]

/-- Claim C2 counterexample: on a tick where the staked-status `Contains` query
fails transiently while the active set (as the `Get` query would report it)
is empty, the claimed policy order demands that the empty-set check comes
first and aborts the process; the worker instead skips the tick at the
failed staked-status query without ever querying the active set, and does
not panic. -/
theorem leader_check_order_counterexample :
    (runTick 5 ⟨9, [1], none, false, none, some [], true, []⟩).2 = TickOutcome.nextTick ∧
    (runTick 5 ⟨9, [1], none, false, none, some [], true, []⟩).2 ≠ TickOutcome.panicked ∧
    TickStep.queryGet ∉ (runTick 5 ⟨9, [1], none, false, none, some [], true, []⟩).1 ∧
    (⟨9, [1], none, false, none, some [], true, []⟩ : TickEnv).getRes = some [] := by
  decide

/-- Claim C2 amended: on every tick that reaches the staking logic (no hard
extraction failure and no `CheckAndSlash` error), the policy is evaluated in
this order: a transient failure of the local-address staked-status query
skips the tick (the active-set query is not even made); a not-staked local
address skips production; a transient failure of the active-set query skips
the tick; an empty active set aborts the process as a fatal invariant
violation; otherwise the local node produces iff the first element of the
active set equals the local address. -/
theorem runTick_staking_policy_order (addr : Nat) (env : TickEnv)
    (h : ¬(env.extracted = [] ∧ env.extractErr = some ExtractErr.decode))
    (hs : env.slashErr = false) :
    (env.containsRes = none →
       (runTick addr env).2 = TickOutcome.nextTick ∧
       TickStep.queryGet ∉ (runTick addr env).1 ∧
       TickStep.leaderCheck ∉ (runTick addr env).1 ∧
       TickStep.produce ∉ (runTick addr env).1) ∧
    (env.containsRes = some false →
       (runTick addr env).2 = TickOutcome.nextTick ∧
       TickStep.queryGet ∉ (runTick addr env).1 ∧
       TickStep.produce ∉ (runTick addr env).1) ∧
    (env.containsRes = some true → env.getRes = none →
       (runTick addr env).2 = TickOutcome.nextTick ∧
       TickStep.queryGet ∈ (runTick addr env).1 ∧
       TickStep.leaderCheck ∉ (runTick addr env).1 ∧
       TickStep.produce ∉ (runTick addr env).1) ∧
    (env.containsRes = some true → env.getRes = some [] →
       (runTick addr env).2 = TickOutcome.panicked) ∧
    (∀ (a : Nat) (tl : List Nat), env.containsRes = some true → env.getRes = some (a :: tl) →
       (runTick addr env).2 = TickOutcome.nextTick ∧
       (TickStep.produce ∈ (runTick addr env).1 ↔ a = addr)) := by
  have hout := runTick_outcome_staking addr env h hs
  have hmemG := runTick_mem_staking addr env TickStep.queryGet h hs
    (by intro n; simp) (by simp) (by intro b; simp) (by simp) (by simp)
  have hmemL := runTick_mem_staking addr env TickStep.leaderCheck h hs
    (by intro n; simp) (by simp) (by intro b; simp) (by simp) (by simp)
  have hmemP := runTick_mem_staking addr env TickStep.produce h hs
    (by intro n; simp) (by simp) (by intro b; simp) (by simp) (by simp)
  refine ⟨?_, ?_, ?_, ?_, ?_⟩
  · intro hc
    rw [hout, hmemG, hmemL, hmemP]
    simp [tickStaking, hc]
  · intro hc
    rw [hout, hmemG, hmemP]
    simp [tickStaking, hc]
  · intro hc hg
    rw [hout, hmemG, hmemL, hmemP]
    simp [tickStaking, hc, hg]
  · intro hc hg
    rw [hout]
    simp [tickStaking, hc, hg]
  · intro a tl hc hg
    rw [hout, hmemP]
    by_cases ha : a = addr
    · by_cases hp : env.produceOk <;> simp [tickStaking, hc, hg, ha, hp]
    · simp [tickStaking, hc, hg, ha]

theorem runTick_staking_policy_order_witness :
    (runTick 5 ⟨9, [1], none, false, some true, some [5, 7], true, []⟩).2 =
      TickOutcome.nextTick ∧
    (TickStep.produce ∈ (runTick 5 ⟨9, [1], none, false, some true, some [5, 7], true, []⟩).1 ↔
      5 = 5) :=
  (runTick_staking_policy_order 5 ⟨9, [1], none, false, some true, some [5, 7], true, []⟩
      (by decide) (by decide)).2.2.2.2 5 [7] (by decide) (by decide)

/-- Claim C5 counterexample: on a DA block whose extraction yields an empty
sequence with the NotFound condition, the tick does proceed (the staking
logic runs and the tick ends normally), but an error-severity log IS
emitted, refuting the claim that no error log occurs. -/
theorem notFound_error_log_counterexample :
    TickStep.logErrExtract ∈
      (runTick 5 ⟨9, [], some ExtractErr.notFound, false, some true, some [7], true, []⟩).1 ∧
    (∃ s ∈ (runTick 5 ⟨9, [], some ExtractErr.notFound, false, some true,
              some [7], true, []⟩).1, TickStep.isErrLog s = true) ∧
    TickStep.queryContains ∈
      (runTick 5 ⟨9, [], some ExtractErr.notFound, false, some true, some [7], true, []⟩).1 ∧
    (runTick 5 ⟨9, [], some ExtractErr.notFound, false, some true, some [7], true, []⟩).2 =
      TickOutcome.nextTick := by
  decide

/-- Claim C5 amended: when extraction yields an empty block sequence with the
distinguished NotFound condition, the tick loop proceeds through the rest
of the tick (fraud phases run, and — absent a `CheckAndSlash` error — the
staking logic runs), but the worker logs the extraction at error severity
before distinguishing NotFound, so an error-severity log is emitted. -/
theorem runTick_notFound_proceeds_with_error_log (addr : Nat) (env : TickEnv)
    (he : env.extracted = []) (hn : env.extractErr = some ExtractErr.notFound) :
    TickStep.logErrExtract ∈ (runTick addr env).1 ∧
    (∃ s ∈ (runTick addr env).1, TickStep.isErrLog s = true) ∧
    TickStep.fraudPhase1 ∈ (runTick addr env).1 ∧
    TickStep.fraudPhase2 ∈ (runTick addr env).1 ∧
    (env.slashErr = false → TickStep.queryContains ∈ (runTick addr env).1) ∧
    (runTick addr env).2 = (tickRest addr env).2 := by
  have h : ¬(env.extracted = [] ∧ env.extractErr = some ExtractErr.decode) := by
    rw [hn]; simp
  have hg : env.extracted = [] ∧ env.extractErr.isSome := by rw [he, hn]; simp
  have htr : (runTick addr env).1 =
      TickStep.storeTick env.daNumber :: TickStep.logErrExtract :: (tickRest addr env).1 := by
    simp [runTick, hg, hn]
  have hout : (runTick addr env).2 = (tickRest addr env).2 := by
    simp [runTick, hg, hn]
  refine ⟨?_, ?_, ?_, ?_, ?_, hout⟩
  · rw [htr]; simp
  · exact ⟨TickStep.logErrExtract, by rw [htr]; simp, rfl⟩
  · rw [htr]; by_cases hsl : env.slashErr <;> simp [tickRest, hsl]
  · rw [htr]; by_cases hsl : env.slashErr <;> simp [tickRest, hsl]
  · intro hs
    rw [runTick_mem_staking addr env TickStep.queryContains h hs
      (by intro n; simp) (by simp) (by intro b; simp) (by simp) (by simp)]
    exact queryContains_mem_tickStaking addr env

theorem runTick_notFound_proceeds_with_error_log_witness :
    TickStep.logErrExtract ∈
      (runTick 4 ⟨2, [], some ExtractErr.notFound, false, some false, none, true, []⟩).1 ∧
    (∃ s ∈ (runTick 4 ⟨2, [], some ExtractErr.notFound, false, some false,
              none, true, []⟩).1, TickStep.isErrLog s = true) ∧
    TickStep.fraudPhase1 ∈
      (runTick 4 ⟨2, [], some ExtractErr.notFound, false, some false, none, true, []⟩).1 ∧
    TickStep.fraudPhase2 ∈
      (runTick 4 ⟨2, [], some ExtractErr.notFound, false, some false, none, true, []⟩).1 ∧
    ((⟨2, [], some ExtractErr.notFound, false, some false, none, true, []⟩ : TickEnv).slashErr
        = false →
      TickStep.queryContains ∈
        (runTick 4 ⟨2, [], some ExtractErr.notFound, false, some false, none, true, []⟩).1) ∧
    (runTick 4 ⟨2, [], some ExtractErr.notFound, false, some false, none, true, []⟩).2 =
      (tickRest 4 ⟨2, [], some ExtractErr.notFound, false, some false, none, true, []⟩).2 :=
  runTick_notFound_proceeds_with_error_log 4
    ⟨2, [], some ExtractErr.notFound, false, some false, none, true, []⟩ (by decide) (by decide)

/-- Claim C6 counterexample: a tick with a hard extraction failure (empty
extraction, non-NotFound decode error) also skips the staked-status check,
leader determination, and production entirely — while `CheckAndSlash` never
even ran (no `fraudPhase2` in the trace) and certainly returned no error —
refuting the claim that no other step causes this full short-circuit. -/
theorem full_short_circuit_counterexample :
    TickStep.queryContains ∉
      (runTick 5 ⟨9, [], some ExtractErr.decode, false, some true, some [5], true, []⟩).1 ∧
    TickStep.leaderCheck ∉
      (runTick 5 ⟨9, [], some ExtractErr.decode, false, some true, some [5], true, []⟩).1 ∧
    TickStep.produce ∉
      (runTick 5 ⟨9, [], some ExtractErr.decode, false, some true, some [5], true, []⟩).1 ∧
    TickStep.fraudPhase2 ∉
      (runTick 5 ⟨9, [], some ExtractErr.decode, false, some true, some [5], true, []⟩).1 ∧
    (⟨9, [], some ExtractErr.decode, false, some true, some [5], true, []⟩ : TickEnv).slashErr
      = false ∧
    (runTick 5 ⟨9, [], some ExtractErr.decode, false, some true, some [5], true, []⟩).2 =
      TickOutcome.nextTick := by
  decide

/-- Claim C6 amended: whenever `CheckAndSlash` errors on a tick that reached it,
the worker skips the remainder of the tick — no staked-status check, no
leader determination, no production — and resumes with the next DA block;
and this full short-circuit happens exactly when either `CheckAndSlash`
errors or extraction hard-fails (empty extraction with a non-NotFound
decode error), the latter being the one other step with the same effect. -/
theorem runTick_short_circuit_characterization (addr : Nat) (env : TickEnv) :
    ((env.slashErr = true ∧ ¬(env.extracted = [] ∧ env.extractErr = some ExtractErr.decode)) →
       TickStep.fraudPhase2 ∈ (runTick addr env).1 ∧
       TickStep.queryContains ∉ (runTick addr env).1 ∧
       TickStep.leaderCheck ∉ (runTick addr env).1 ∧
       TickStep.produce ∉ (runTick addr env).1 ∧
       (runTick addr env).2 = TickOutcome.nextTick) ∧
    ((TickStep.queryContains ∉ (runTick addr env).1 ∧
      TickStep.leaderCheck ∉ (runTick addr env).1 ∧
      TickStep.produce ∉ (runTick addr env).1) ↔
      (env.slashErr = true ∨ (env.extracted = [] ∧ env.extractErr = some ExtractErr.decode))) := by
  by_cases hard : env.extracted = [] ∧ env.extractErr = some ExtractErr.decode
  · have htr : (runTick addr env).1 =
        [TickStep.storeTick env.daNumber, TickStep.logErrExtract] := by
      have hg : env.extracted = [] ∧ env.extractErr.isSome := by
        rw [hard.1, hard.2]; simp
      simp [runTick, hg, hard.2]
    constructor
    · rintro ⟨-, hnh⟩
      exact absurd hard hnh
    · rw [htr]
      simp [hard.1, hard.2]
  · obtain ⟨pre, hpre, htr, hout⟩ := runTick_decomp addr env hard
    by_cases hsl : env.slashErr
    · have hrest : (tickRest addr env).1 =
          env.extracted.map TickStep.writeExtracted ++
            [TickStep.fraudPhase1, TickStep.fraudPhase2] := by
        simp [tickRest, hsl]
      have hrout : (tickRest addr env).2 = TickOutcome.nextTick := by
        simp [tickRest, hsl]
      constructor
      · intro _
        rw [htr, hout, hrest, hrout]
        rcases hpre with hpre | hpre <;> subst hpre <;>
          simp [List.mem_map]
      · rw [htr, hrest]
        have : env.slashErr = true := hsl
        rcases hpre with hpre | hpre <;> subst hpre <;>
          simp [List.mem_map, this]
    · have hsl' : env.slashErr = false := by simpa using hsl
      constructor
      · rintro ⟨hcontra, -⟩
        rw [hsl'] at hcontra
        exact absurd hcontra (by simp)
      · have hqc : TickStep.queryContains ∈ (runTick addr env).1 := by
          rw [runTick_mem_staking addr env TickStep.queryContains hard hsl'
            (by intro n; simp) (by simp) (by intro b; simp) (by simp) (by simp)]
          exact queryContains_mem_tickStaking addr env
        constructor
        · rintro ⟨hnqc, -, -⟩
          exact absurd hqc hnqc
        · rintro (hcontra | hcontra)
          · rw [hsl'] at hcontra; exact absurd hcontra (by simp)
          · exact absurd hcontra hard

theorem runTick_short_circuit_characterization_witness :
    TickStep.fraudPhase2 ∈ (runTick 5 ⟨9, [3], none, true, some true, some [5], true, []⟩).1 ∧
    TickStep.queryContains ∉
      (runTick 5 ⟨9, [3], none, true, some true, some [5], true, []⟩).1 ∧
    TickStep.leaderCheck ∉ (runTick 5 ⟨9, [3], none, true, some true, some [5], true, []⟩).1 ∧
    TickStep.produce ∉ (runTick 5 ⟨9, [3], none, true, some true, some [5], true, []⟩).1 ∧
    (runTick 5 ⟨9, [3], none, true, some true, some [5], true, []⟩).2 =
      TickOutcome.nextTick :=
  (runTick_short_circuit_characterization 5
      ⟨9, [3], none, true, some true, some [5], true, []⟩).1 (by decide)

/-- Claim C8: every tick first stores the DA block number as the worker clock
(the trace begins with `storeTick`), and over any strictly increasing
sequence of DA block numbers the recorded clock value after each tick — the
number of that tick — is the maximum of all values seen so far. -/
theorem runTick_daTick_monotone (addr : Nat) (envs : List TickEnv)
    (hmono : List.Chain' (· < ·) (envs.map TickEnv.daNumber)) :
    (∀ e ∈ envs, ((runTick addr e).1).head? = some (TickStep.storeTick e.daNumber)) ∧
    (∀ j k : Nat, j ≤ k →
       ∀ (hj : j < (envs.map TickEnv.daNumber).length)
         (hk : k < (envs.map TickEnv.daNumber).length),
         (envs.map TickEnv.daNumber).get ⟨j, hj⟩ ≤ (envs.map TickEnv.daNumber).get ⟨k, hk⟩) := by
  constructor
  · intro e _
    by_cases hg : e.extracted = [] ∧ e.extractErr.isSome
    · by_cases hnf : e.extractErr ≠ some ExtractErr.notFound <;> simp [runTick, hg, hnf]
    · simp [runTick, hg]
  · have hp := List.chain'_iff_pairwise.mp hmono
    intro j k hjk hj hk
    rcases Nat.lt_or_ge j k with hlt | hge
    · exact le_of_lt (List.pairwise_iff_get.mp hp ⟨j, hj⟩ ⟨k, hk⟩ (Fin.mk_lt_mk.mpr hlt))
    · have hjke : j = k := Nat.le_antisymm hjk hge
      subst hjke
      exact Nat.le_refl _

/-- A two-tick DA stream used to instantiate the clock monotonicity. -/
def envA : TickEnv := ⟨3, [], none, false, some true, some [0], true, []⟩

/-- The successor tick of [envA] in the demonstration stream. -/
def envB : TickEnv := ⟨5, [], none, false, some true, some [0], true, []⟩

theorem runTick_daTick_monotone_witness :
    ((runTick 0 envA).1).head? = some (TickStep.storeTick envA.daNumber) ∧
    ([envA, envB].map TickEnv.daNumber).get ⟨0, by decide⟩ ≤
      ([envA, envB].map TickEnv.daNumber).get ⟨1, by decide⟩ :=
  ⟨(runTick_daTick_monotone 0 [envA, envB]
       (by norm_num [envA, envB, List.chain'_cons])).1 envA (by decide),
   (runTick_daTick_monotone 0 [envA, envB]
       (by norm_num [envA, envB, List.chain'_cons])).2 0 1 (by decide) (by decide)
     (by decide)⟩

/-- Claim C9: on every tick not short-circuited by a hard extraction failure, the
local `WriteBlock` of each extracted settlement block appears in the trace,
in extraction order, strictly before the fraud resolver's
`CheckAndSetFraudBlock` and `CheckAndSlash` — including ticks whose
extraction reported a non-NotFound decode error alongside a non-empty block
list — and the (discarded) error results of those local writes have no
influence whatsoever on the tick's trace or outcome. -/
theorem runTick_writes_precede_fraud_checks (addr : Nat) (env : TickEnv)
    (h : ¬(env.extracted = [] ∧ env.extractErr = some ExtractErr.decode)) :
    (∃ pre tail, (pre = [] ∨ pre = [TickStep.logErrExtract]) ∧
       (runTick addr env).1 =
         TickStep.storeTick env.daNumber :: (pre ++
           (env.extracted.map TickStep.writeExtracted ++
             (TickStep.fraudPhase1 :: TickStep.fraudPhase2 :: tail)))) ∧
    (∀ l : List Bool,
       runTick addr { env with localWriteRes := l } = runTick addr env) := by
  constructor
  · obtain ⟨pre, hpre, htr, -⟩ := runTick_decomp addr env h
    by_cases hsl : env.slashErr
    · refine ⟨pre, [], hpre, ?_⟩
      rw [htr]
      simp [tickRest, hsl, List.append_assoc]
    · refine ⟨pre, (tickStaking addr env).1, hpre, ?_⟩
      rw [htr]
      simp [tickRest, hsl, List.append_assoc]
  · intro l
    rcases env with ⟨dn, ex, ee, se, cr, gr, po, lw⟩
    simp only [runTick, tickRest, tickStaking]

theorem runTick_writes_precede_fraud_checks_witness :
    (∃ pre tail, (pre = [] ∨ pre = [TickStep.logErrExtract]) ∧
       (runTick 5 ⟨9, [1, 2], some ExtractErr.decode, false, some true, some [5], true,
           []⟩).1 =
         TickStep.storeTick 9 :: (pre ++
           ([1, 2].map TickStep.writeExtracted ++
             (TickStep.fraudPhase1 :: TickStep.fraudPhase2 :: tail)))) ∧
    (∀ l : List Bool,
       runTick 5 { (⟨9, [1, 2], some ExtractErr.decode, false, some true, some [5], true,
           []⟩ : TickEnv) with localWriteRes := l } =
         runTick 5 ⟨9, [1, 2], some ExtractErr.decode, false, some true, some [5], true, []⟩) :=
  runTick_writes_precede_fraud_checks 5
    ⟨9, [1, 2], some ExtractErr.decode, false, some true, some [5], true, []⟩ (by decide)
